import Mathlib

/-!
Shallow embedding of the columnar geometry array core of `datafusion-geo`
(coordinate buffers, offset buffers, typed geometry arrays and their
builders, the mixed union array, and the WKB dialect codec), together with
theorems checking the specification's claims against it.

Rust `f64` coordinates are modelled by Lean's `Float` (values are only
stored and read back, never computed with).  Rust `DFResult<T>` is
modelled by `Except String T`; error messages mirror the source.  Offsets
(`i32`/`i64` via `O: OffsetSizeTrait`) are modelled by `Nat`: the builders
only ever store non-negative running counts and no claim exercises
overflow.
-/

namespace DFGeo

/-- `Except.isOk`-style Boolean success test for `DFResult`. -/
def isOk {ε α : Type} : Except ε α → Bool
  | .ok _ => true
  | .error _ => false

theorem isOk_ok {ε α : Type} (a : α) : isOk (ε := ε) (.ok a) = true := rfl

theorem isOk_error {ε α : Type} (e : ε) : isOk (α := α) (.error e) = false := rfl

/-- A 2-D coordinate (`geo::Coord`, two `f64` fields). -/
structure GeoCoord where
  x : Float
  y : Float

/-- `geo::LineString`: a sequence of coordinates. -/
abbrev GeoLineString := List GeoCoord

/-- `geo::Polygon`: one exterior ring plus interior rings. -/
structure GeoPolygon where
  exterior : GeoLineString
  interiors : List GeoLineString

/-- Owned geometry tree (`geo::Geometry`), restricted to the shapes the
claims read back by `to_geo`. -/
inductive GeoGeometry where
  | point (c : GeoCoord)
  | lineString (cs : List GeoCoord)
  | polygon (exterior : List GeoCoord) (interiors : List (List GeoCoord))

/-- Flat interleaved x/y storage produced from a coordinate list, as
`CoordBufferBuilder::push_geo_coord` lays it out. -/
def flatCoords (cs : List GeoCoord) : List Float :=
  (cs.map fun c => [c.x, c.y]).flatten

/-- `CoordBuffer`: a flat sequence of interleaved (x, y) `f64` values. -/
structure CoordBuffer where
  coords : List Float

namespace CoordBuffer

/-- `CoordBuffer::try_new`: rejects odd-length storage. -/
def tryNew (coords : List Float) : Except String CoordBuffer :=
  if coords.length % 2 ≠ 0 then
    .error "x and y arrays must have the same length"
  else
    .ok ⟨coords⟩

/-- `CoordBuffer::x`: `self.coords.get(i * 2)`. -/
def x (cb : CoordBuffer) (i : Nat) : Option Float :=
  cb.coords[i * 2]?

/-- `CoordBuffer::y`: `self.coords.get(i * 2 + 1)`. -/
def y (cb : CoordBuffer) (i : Nat) : Option Float :=
  cb.coords[i * 2 + 1]?

/-- `CoordBuffer::len`: point count = storage length / 2. -/
def len (cb : CoordBuffer) : Nat :=
  cb.coords.length / 2

/-- `CoordBuffer::slice(offset, length)`: fails when the requested point
range exceeds the buffer, otherwise restricts the storage to
`[offset*2, (offset+length)*2)`. -/
def slice (cb : CoordBuffer) (offset length : Nat) : Except String CoordBuffer :=
  if offset + length > cb.len then
    .error "offset + length may not exceed length of array"
  else
    .ok ⟨(cb.coords.drop (offset * 2)).take (length * 2)⟩

end CoordBuffer

/-- Arrow `NullBuffer`: one validity bit per row (`true` = valid). -/
abbrev NullBuffer := List Bool

/-- `NullBuffer::is_null(i)`.  Arrow asserts `i` is in range; the model
returns `false` (valid) out of range, and every theorem that touches a
null buffer only reads it in range. -/
def isNullBit (nb : NullBuffer) (i : Nat) : Bool :=
  !(nb.getD i true)

/-- `GeometryArrayTrait::is_null`: absent buffer means all rows valid. -/
def isNullOpt (nulls : Option NullBuffer) (i : Nat) : Bool :=
  (nulls.map fun nb => isNullBit nb i).getD false

/-- `NullBufferBuilder::finish`/`finish_cloned`: returns `None` when no
null was ever appended, otherwise the recorded validity bits. -/
def finishNulls (bits : List Bool) : Option NullBuffer :=
  if bits.all (fun b => b) then none else some bits

/-- `check_nulls`: a present null buffer must match the row count. -/
def checkNulls (nulls : Option NullBuffer) (expectedLen : Nat) : Except String Unit :=
  match nulls with
  | some nb =>
      if nb.length ≠ expectedLen then
        .error "nulls mask length must match the number of values"
      else
        .ok ()
  | none => .ok ()

/-- Arrow `OffsetBuffer<O>` contents, as a list of offsets. -/
abbrev OffsetList := List Nat

/-- `compute_start_end_offset`: reads `offsets[i]` and `offsets[i+1]`,
erroring when either is out of bounds. -/
def computeStartEndOffset (geomOffsets : OffsetList) (geomIndex : Nat) :
    Except String (Nat × Nat) :=
  match geomOffsets[geomIndex]? with
  | none => .error "Cannot get start_offset"
  | some startOffset =>
      match geomOffsets[geomIndex + 1]? with
      | none => .error "Cannot get end_offset"
      | some endOffset => .ok (startOffset, endOffset)

/-- `geozero::wkb::WkbDialect`. -/
inductive WkbDialect where
  | wkb
  | ewkb
  | geopackage
  | mysql
  | spatiaLite
deriving DecidableEq

/-- `wkb_type_id`: the tag byte stored for each dialect. -/
def wkbTypeId : WkbDialect → Nat
  | .wkb => 1
  | .ewkb => 2
  | .geopackage => 3
  | .mysql => 4
  | .spatiaLite => 5

/-- `decode_wkb_dialect`: inverse of `wkbTypeId`, failing on any other
byte value. -/
def decodeWkbDialect (typeId : Nat) : Except String WkbDialect :=
  if typeId = wkbTypeId .wkb then .ok .wkb
  else if typeId = wkbTypeId .ewkb then .ok .ewkb
  else if typeId = wkbTypeId .geopackage then .ok .geopackage
  else if typeId = wkbTypeId .mysql then .ok .mysql
  else if typeId = wkbTypeId .spatiaLite then .ok .spatiaLite
  else .error "Cannot decode WkbDialect"

/-- Scalar view `Point`: a coordinate buffer plus a row index. -/
structure Point where
  coords : CoordBuffer
  geomIndex : Nat

namespace Point

/-- `Point::try_new`: rejects an out-of-range row index. -/
def tryNew (coords : CoordBuffer) (geomIndex : Nat) : Except String Point :=
  if geomIndex ≥ coords.len then
    .error "geom_index is out of range of coords"
  else
    .ok ⟨coords, geomIndex⟩

/-- `Point::x` (`expect` cannot fire after `try_new`; the model defaults). -/
def xVal (p : Point) : Float :=
  (p.coords.x p.geomIndex).getD 0

/-- `Point::y`. -/
def yVal (p : Point) : Float :=
  (p.coords.y p.geomIndex).getD 0

/-- `From<&Point> for geo::Coord`. -/
def toCoord (p : Point) : GeoCoord :=
  ⟨p.xVal, p.yVal⟩

end Point

/-- Scalar view `LineString`. -/
structure LineString where
  coords : CoordBuffer
  geomOffsets : OffsetList
  geomIndex : Nat
  startOffset : Nat
  endOffset : Nat

namespace LineString

/-- `LineString::try_new`. -/
def tryNew (coords : CoordBuffer) (geomOffsets : OffsetList) (geomIndex : Nat) :
    Except String LineString :=
  (computeStartEndOffset geomOffsets geomIndex).map fun (se : Nat × Nat) =>
    ⟨coords, geomOffsets, geomIndex, se.1, se.2⟩

/-- `LineString::num_coords`. -/
def numCoords (ls : LineString) : Nat :=
  ls.endOffset - ls.startOffset

/-- `LineString::coord(i)`. -/
def coord (ls : LineString) (i : Nat) : Option Point :=
  if i ≥ ls.numCoords then none
  else (Point.tryNew ls.coords (ls.startOffset + i)).toOption

/-- `LineString::to_geo`: materializes the coordinate sequence
(`coords()` iterates indices `0..num_coords`; `expect` cannot fire for a
well-formed array, the model drops impossible failures). -/
def toGeo (ls : LineString) : GeoGeometry :=
  .lineString (((List.range ls.numCoords).map ls.coord).reduceOption.map Point.toCoord)

end LineString

/-- Scalar view `Polygon` (ring 0 of its ring range is the exterior). -/
structure Polygon where
  coords : CoordBuffer
  geomOffsets : OffsetList
  ringOffsets : OffsetList
  geomIndex : Nat
  startOffset : Nat
  endOffset : Nat

namespace Polygon

/-- `Polygon::try_new`: also rejects an empty ring range ("polygon should
not be empty") and an empty `ring_offsets` buffer. -/
def tryNew (coords : CoordBuffer) (geomOffsets ringOffsets : OffsetList)
    (geomIndex : Nat) : Except String Polygon := do
  let se ← computeStartEndOffset geomOffsets geomIndex
  if se.1 = se.2 ∨ ringOffsets.length = 0 then
    .error "polygon should not be empty"
  else
    .ok ⟨coords, geomOffsets, ringOffsets, geomIndex, se.1, se.2⟩

end Polygon

/-- Scalar view `MultiPoint`. -/
structure MultiPoint where
  coords : CoordBuffer
  geomOffsets : OffsetList
  geomIndex : Nat
  startOffset : Nat
  endOffset : Nat

namespace MultiPoint

/-- `MultiPoint::try_new` (inlines the same start/end lookup as
`compute_start_end_offset`). -/
def tryNew (coords : CoordBuffer) (geomOffsets : OffsetList) (geomIndex : Nat) :
    Except String MultiPoint :=
  (computeStartEndOffset geomOffsets geomIndex).map fun (se : Nat × Nat) =>
    ⟨coords, geomOffsets, geomIndex, se.1, se.2⟩

end MultiPoint

/-- Scalar view `MultiLineString`. -/
structure MultiLineString where
  coords : CoordBuffer
  geomOffsets : OffsetList
  ringOffsets : OffsetList
  geomIndex : Nat
  startOffset : Nat
  endOffset : Nat

namespace MultiLineString

/-- `MultiLineString::try_new`. -/
def tryNew (coords : CoordBuffer) (geomOffsets ringOffsets : OffsetList)
    (geomIndex : Nat) : Except String MultiLineString :=
  (computeStartEndOffset geomOffsets geomIndex).map fun (se : Nat × Nat) =>
    ⟨coords, geomOffsets, ringOffsets, geomIndex, se.1, se.2⟩

end MultiLineString

/-- Scalar view `MultiPolygon`. -/
structure MultiPolygonScalar where
  coords : CoordBuffer
  geomOffsets : OffsetList
  polygonOffsets : OffsetList
  ringOffsets : OffsetList
  geomIndex : Nat
  startOffset : Nat
  endOffset : Nat

namespace MultiPolygonScalar

/-- `MultiPolygon::try_new`. -/
def tryNew (coords : CoordBuffer) (geomOffsets polygonOffsets ringOffsets : OffsetList)
    (geomIndex : Nat) : Except String MultiPolygonScalar :=
  (computeStartEndOffset geomOffsets geomIndex).map fun (se : Nat × Nat) =>
    ⟨coords, geomOffsets, polygonOffsets, ringOffsets, geomIndex, se.1, se.2⟩

end MultiPolygonScalar

/-- `GeometryScalar`: the tagged union of the six scalar views. -/
inductive GeometryScalar where
  | point (v : Point)
  | lineString (v : LineString)
  | polygon (v : Polygon)
  | multiPoint (v : MultiPoint)
  | multiLineString (v : MultiLineString)
  | multiPolygon (v : MultiPolygonScalar)

/-- `PointArray`. -/
structure PointArray where
  coords : CoordBuffer
  nulls : Option NullBuffer

namespace PointArray

def geoTypeId : Int := 1

/-- `PointArray::try_new`. -/
def tryNew (coords : CoordBuffer) (nulls : Option NullBuffer) :
    Except String PointArray := do
  let _ ← checkNulls nulls coords.len
  .ok ⟨coords, nulls⟩

/-- `PointArray::len`: row count = coordinate count. -/
def len (arr : PointArray) : Nat := arr.coords.len

def isNullAt (arr : PointArray) (i : Nat) : Bool := isNullOpt arr.nulls i

/-- `PointArray::value`. -/
def value (arr : PointArray) (index : Nat) : Except String (Option Point) :=
  if arr.isNullAt index then .ok none
  else (Point.tryNew arr.coords index).map some

end PointArray

/-- `LineStringArray`. -/
structure LineStringArray where
  coords : CoordBuffer
  geomOffsets : OffsetList
  nulls : Option NullBuffer

namespace LineStringArray

def geoTypeId : Int := 2

/-- `LineStringArray::try_new` (the source unwraps the always-present
last offset of an Arrow `OffsetBuffer`; an empty offset list is treated
as a mismatch). -/
def tryNew (coords : CoordBuffer) (geomOffsets : OffsetList)
    (nulls : Option NullBuffer) : Except String LineStringArray := do
  let _ ← checkNulls nulls (geomOffsets.length - 1)
  if geomOffsets.getLast? ≠ some coords.len then
    .error "largest geometry offset must match coords length"
  else
    .ok ⟨coords, geomOffsets, nulls⟩

/-- `LineStringArray::len`. -/
def len (arr : LineStringArray) : Nat := arr.geomOffsets.length - 1

def isNullAt (arr : LineStringArray) (i : Nat) : Bool := isNullOpt arr.nulls i

/-- `LineStringArray::value`. -/
def value (arr : LineStringArray) (index : Nat) :
    Except String (Option LineString) :=
  if arr.isNullAt index then .ok none
  else (LineString.tryNew arr.coords arr.geomOffsets index).map some

/-- `value_as_geo`: materialize row `index` through `to_geo`. -/
def valueAsGeo (arr : LineStringArray) (index : Nat) :
    Except String (Option GeoGeometry) :=
  (arr.value index).map fun v => v.map LineString.toGeo

/-- `iter_geo` over all rows (the source unwraps per-row results; the
model propagates an error instead, the two only differ on a malformed
array). -/
def iterGeo (arr : LineStringArray) : Except String (List (Option GeoGeometry)) :=
  (List.range arr.len).mapM arr.valueAsGeo

end LineStringArray

/-- `PolygonArray`. -/
structure PolygonArray where
  coords : CoordBuffer
  geomOffsets : OffsetList
  ringOffsets : OffsetList
  nulls : Option NullBuffer

namespace PolygonArray

def geoTypeId : Int := 3

/-- `PolygonArray::try_new`. -/
def tryNew (coords : CoordBuffer) (geomOffsets ringOffsets : OffsetList)
    (nulls : Option NullBuffer) : Except String PolygonArray := do
  let _ ← checkNulls nulls (geomOffsets.length - 1)
  if ringOffsets.getLast? ≠ some coords.len then
    .error "largest ring offset must match coords length"
  else if geomOffsets.getLast? ≠ some (ringOffsets.length - 1) then
    .error "largest geometry offset must match ring offsets length"
  else
    .ok ⟨coords, geomOffsets, ringOffsets, nulls⟩

/-- `PolygonArray::len`. -/
def len (arr : PolygonArray) : Nat := arr.geomOffsets.length - 1

def isNullAt (arr : PolygonArray) (i : Nat) : Bool := isNullOpt arr.nulls i

/-- `PolygonArray::value`. -/
def value (arr : PolygonArray) (index : Nat) : Except String (Option Polygon) :=
  if arr.isNullAt index then .ok none
  else (Polygon.tryNew arr.coords arr.geomOffsets arr.ringOffsets index).map some

end PolygonArray

/-- `MultiPointArray`. -/
structure MultiPointArray where
  coords : CoordBuffer
  geomOffsets : OffsetList
  nulls : Option NullBuffer

namespace MultiPointArray

def geoTypeId : Int := 4

/-- `MultiPointArray::try_new`. -/
def tryNew (coords : CoordBuffer) (geomOffsets : OffsetList)
    (nulls : Option NullBuffer) : Except String MultiPointArray := do
  let _ ← checkNulls nulls (geomOffsets.length - 1)
  if geomOffsets.getLast? ≠ some coords.len then
    .error "largest geometry offset must match coords length"
  else
    .ok ⟨coords, geomOffsets, nulls⟩

/-- `MultiPointArray::len`. -/
def len (arr : MultiPointArray) : Nat := arr.geomOffsets.length - 1

def isNullAt (arr : MultiPointArray) (i : Nat) : Bool := isNullOpt arr.nulls i

/-- `MultiPointArray::value`. -/
def value (arr : MultiPointArray) (index : Nat) :
    Except String (Option MultiPoint) :=
  if arr.isNullAt index then .ok none
  else (MultiPoint.tryNew arr.coords arr.geomOffsets index).map some

end MultiPointArray

/-- `MultiLineStringArray`. -/
structure MultiLineStringArray where
  coords : CoordBuffer
  geomOffsets : OffsetList
  ringOffsets : OffsetList
  nulls : Option NullBuffer

namespace MultiLineStringArray

def geoTypeId : Int := 5

/-- `MultiLineStringArray::try_new`. -/
def tryNew (coords : CoordBuffer) (geomOffsets ringOffsets : OffsetList)
    (nulls : Option NullBuffer) : Except String MultiLineStringArray := do
  let _ ← checkNulls nulls (geomOffsets.length - 1)
  if ringOffsets.getLast? ≠ some coords.len then
    .error "largest ring offset must match coords length"
  else if geomOffsets.getLast? ≠ some (ringOffsets.length - 1) then
    .error "largest geometry offset must match ring offsets length"
  else
    .ok ⟨coords, geomOffsets, ringOffsets, nulls⟩

/-- `MultiLineStringArray::len`. -/
def len (arr : MultiLineStringArray) : Nat := arr.geomOffsets.length - 1

def isNullAt (arr : MultiLineStringArray) (i : Nat) : Bool := isNullOpt arr.nulls i

/-- `MultiLineStringArray::value`. -/
def value (arr : MultiLineStringArray) (index : Nat) :
    Except String (Option MultiLineString) :=
  if arr.isNullAt index then .ok none
  else (MultiLineString.tryNew arr.coords arr.geomOffsets arr.ringOffsets index).map some

end MultiLineStringArray

/-- `MultiPolygonArray`. -/
structure MultiPolygonArray where
  coords : CoordBuffer
  geomOffsets : OffsetList
  polygonOffsets : OffsetList
  ringOffsets : OffsetList
  nulls : Option NullBuffer

namespace MultiPolygonArray

/-- Modelled from the spec: `MultiPolygonArray`'s `geo_type_id` impl is
absent from this source snapshot; the value 6 comes from the
`GeometryType::geo_type_id` table (`src/array/mod.rs`), which the spec
fixes as MultiPolygon=6. -/
def geoTypeId : Int := 6

/-- `MultiPolygonArray::try_new`. -/
def tryNew (coords : CoordBuffer) (geomOffsets polygonOffsets ringOffsets : OffsetList)
    (nulls : Option NullBuffer) : Except String MultiPolygonArray := do
  let _ ← checkNulls nulls (geomOffsets.length - 1)
  if ringOffsets.getLast? ≠ some coords.len then
    .error "largest ring offset must match coords length"
  else if polygonOffsets.getLast? ≠ some (ringOffsets.length - 1) then
    .error "largest polygon offset must match ring offsets length"
  else if geomOffsets.getLast? ≠ some (polygonOffsets.length - 1) then
    .error "largest geometry offset must match polygon offsets length"
  else
    .ok ⟨coords, geomOffsets, polygonOffsets, ringOffsets, nulls⟩

/-- `MultiPolygonArray::len`. -/
def len (arr : MultiPolygonArray) : Nat := arr.geomOffsets.length - 1

def isNullAt (arr : MultiPolygonArray) (i : Nat) : Bool := isNullOpt arr.nulls i

/-- `MultiPolygonArray::value`. -/
def value (arr : MultiPolygonArray) (index : Nat) :
    Except String (Option MultiPolygonScalar) :=
  if arr.isNullAt index then .ok none
  else
    (MultiPolygonScalar.tryNew arr.coords arr.geomOffsets arr.polygonOffsets
      arr.ringOffsets index).map some

end MultiPolygonArray

/-- `GeometryType`: the closed set of six geometry shapes. -/
inductive GeometryType where
  | point
  | lineString
  | polygon
  | multiPoint
  | multiLineString
  | multiPolygon
deriving DecidableEq

namespace GeometryType

/-- `GeometryType::geo_type_id`: the fixed identifier table. -/
def geoTypeId : GeometryType → Int
  | .point => 1
  | .lineString => 2
  | .polygon => 3
  | .multiPoint => 4
  | .multiLineString => 5
  | .multiPolygon => 6

/-- `GeometryType::iter()` (strum `EnumIter`, declaration order). -/
def all : List GeometryType :=
  [.point, .lineString, .polygon, .multiPoint, .multiLineString, .multiPolygon]

/-- `GeometryType::find`. -/
def find (typeId : Int) : Option GeometryType :=
  all.find? fun t => t.geoTypeId = typeId

end GeometryType

/-- `MixedGeometryArray`: per-row type tag + offset into one of six
optional typed sub-arrays. -/
structure MixedGeometryArray where
  typeIds : List Int
  offsets : List Nat
  nulls : Option NullBuffer
  points : Option PointArray
  lineStrings : Option LineStringArray
  polygons : Option PolygonArray
  multiPoints : Option MultiPointArray
  multiLineStrings : Option MultiLineStringArray
  multiPolygons : Option MultiPolygonArray

namespace MixedGeometryArray

/-- `MixedGeometryArray::try_new`. -/
def tryNew (typeIds : List Int) (offsets : List Nat) (nulls : Option NullBuffer)
    (points : Option PointArray) (lineStrings : Option LineStringArray)
    (polygons : Option PolygonArray) (multiPoints : Option MultiPointArray)
    (multiLineStrings : Option MultiLineStringArray)
    (multiPolygons : Option MultiPolygonArray) : Except String MixedGeometryArray := do
  if typeIds.length ≠ offsets.length then
    .error "type_ids buffer and offsets buffer must have same length"
  else
    let _ ← checkNulls nulls typeIds.length
    .ok ⟨typeIds, offsets, nulls, points, lineStrings, polygons, multiPoints,
      multiLineStrings, multiPolygons⟩

/-- `MixedGeometryArray::len`. -/
def len (arr : MixedGeometryArray) : Nat := arr.typeIds.length

/-- `MixedGeometryArray::value`: read `type_ids[index]` (a missing entry
yields `Ok(None)`), then dispatch on the six fixed type ids;
`self.offsets[index]` is a direct read, in bounds for a `try_new`-checked
array whenever `type_ids[index]` exists. -/
def value (arr : MixedGeometryArray) (index : Nat) :
    Except String (Option GeometryScalar) :=
  match arr.typeIds[index]? with
  | none => .ok none
  | some geoTypeId =>
      let offset := arr.offsets.getD index 0
      if geoTypeId = PointArray.geoTypeId then
        match arr.points with
        | some pointArr => (pointArr.value offset).map fun v => v.map .point
        | none => .error "point array is none"
      else if geoTypeId = LineStringArray.geoTypeId then
        match arr.lineStrings with
        | some lineStringArr =>
            (lineStringArr.value offset).map fun v => v.map .lineString
        | none => .error "linestring array is none"
      else if geoTypeId = PolygonArray.geoTypeId then
        match arr.polygons with
        | some polygonArr => (polygonArr.value offset).map fun v => v.map .polygon
        | none => .error "polygon array is none"
      else if geoTypeId = MultiPointArray.geoTypeId then
        match arr.multiPoints with
        | some multiPointArr =>
            (multiPointArr.value offset).map fun v => v.map .multiPoint
        | none => .error "multipoint array is none"
      else if geoTypeId = MultiLineStringArray.geoTypeId then
        match arr.multiLineStrings with
        | some multiLineStringArr =>
            (multiLineStringArr.value offset).map fun v => v.map .multiLineString
        | none => .error "multilinestring array is none"
      else if geoTypeId = MultiPolygonArray.geoTypeId then
        match arr.multiPolygons with
        | some multiPolygonArr =>
            (multiPolygonArr.value offset).map fun v => v.map .multiPolygon
        | none => .error "multipolygon array is none"
      else
        .error "Invalid geometry type id"

end MixedGeometryArray

/-- Spec-side model of the mixed-array dispatch, written from the spec's
words: "read `type_ids[i]`, map it to one of six fixed geometry-type
identifiers (Point=1, ..., MultiPolygon=6), then index the matching
sub-array at `offsets[i]`; fail if the referenced sub-array is absent or
the type id is outside the known set".  Compared against
`MixedGeometryArray.value` in the C2 theorem. -/
def mixedValueSpecModel (arr : MixedGeometryArray) (index : Nat) :
    Except String (Option GeometryScalar) :=
  match arr.typeIds[index]? with
  | none => .ok none
  | some typeId =>
      match GeometryType.find typeId with
      | none => .error "Invalid geometry type id"
      | some ty =>
          let offset := arr.offsets.getD index 0
          match ty with
          | .point =>
              match arr.points with
              | some a => (a.value offset).map fun v => v.map .point
              | none => .error "point array is none"
          | .lineString =>
              match arr.lineStrings with
              | some a => (a.value offset).map fun v => v.map .lineString
              | none => .error "linestring array is none"
          | .polygon =>
              match arr.polygons with
              | some a => (a.value offset).map fun v => v.map .polygon
              | none => .error "polygon array is none"
          | .multiPoint =>
              match arr.multiPoints with
              | some a => (a.value offset).map fun v => v.map .multiPoint
              | none => .error "multipoint array is none"
          | .multiLineString =>
              match arr.multiLineStrings with
              | some a => (a.value offset).map fun v => v.map .multiLineString
              | none => .error "multilinestring array is none"
          | .multiPolygon =>
              match arr.multiPolygons with
              | some a => (a.value offset).map fun v => v.map .multiPolygon
              | none => .error "multipolygon array is none"

/-- `GenericByteArray<GenericBinaryType<O>>` as used for WKB storage:
an offset buffer over a concatenated byte store plus a null buffer.
Bytes are modelled as `Nat` values. -/
structure BinaryArray where
  offsets : List Nat
  values : List Nat
  nulls : Option NullBuffer

namespace BinaryArray

/-- `GeometryArray::geom_len` (= Arrow array length). -/
def geomLen (arr : BinaryArray) : Nat := arr.offsets.length - 1

def isNullAt (arr : BinaryArray) (i : Nat) : Bool := isNullOpt arr.nulls i

/-- `GenericByteArray::value(i)`: the byte range
`values[offsets[i]..offsets[i+1]]` (only read in range by `wkb`). -/
def valueAt (arr : BinaryArray) (i : Nat) : List Nat :=
  let s := arr.offsets.getD i 0
  let e := arr.offsets.getD (i + 1) 0
  (arr.values.drop s).take (e - s)

/-- `GeometryArray::dialect`: decode byte 0 of the value data. -/
def dialect (arr : BinaryArray) : Except String WkbDialect :=
  match arr.values.head? with
  | some b => decodeWkbDialect b
  | none => .error "Cannot get dialect as data is empty"

/-- `GeometryArray::wkb`: `None` past the end or on a null row, the raw
payload bytes otherwise. -/
def wkb (arr : BinaryArray) (index : Nat) : Option (List Nat) :=
  if index ≥ arr.geomLen || arr.isNullAt index then none
  else some (arr.valueAt index)

end BinaryArray

/-- `GeometryArrayBuilder<O>` over WKB bytes (`src/geo/builder.rs`). -/
structure WkbArrayBuilder where
  dialect : WkbDialect
  valueBuilder : List Nat
  offsetsBuilder : List Nat
  nullBuilder : List Bool

namespace WkbArrayBuilder

/-- `GeometryArrayBuilder::new`: stores the dialect tag byte once, then
records the first offset (= 1, just past the tag). -/
def new (dialect : WkbDialect) : WkbArrayBuilder :=
  ⟨dialect, [wkbTypeId dialect], [1], []⟩

/-- `GeometryArrayBuilder::append_null`. -/
def appendNull (b : WkbArrayBuilder) : WkbArrayBuilder :=
  { b with
    nullBuilder := b.nullBuilder ++ [false]
    offsetsBuilder := b.offsetsBuilder ++ [b.valueBuilder.length] }

/-- `GeometryArrayBuilder::internal_append_wkb`. -/
def internalAppendWkb (b : WkbArrayBuilder) (wkb : List Nat) : WkbArrayBuilder :=
  { b with
    valueBuilder := b.valueBuilder ++ wkb
    nullBuilder := b.nullBuilder ++ [true]
    offsetsBuilder := b.offsetsBuilder ++ [(b.valueBuilder ++ wkb).length] }

/-- Append an optional payload (`append_wkb` minus the dialect-specific
payload validation, which parses via an external library). -/
def appendOpt (b : WkbArrayBuilder) (o : Option (List Nat)) : WkbArrayBuilder :=
  match o with
  | some w => b.internalAppendWkb w
  | none => b.appendNull

def appendAll (b : WkbArrayBuilder) (ops : List (Option (List Nat))) : WkbArrayBuilder :=
  ops.foldl appendOpt b

/-- `GeometryArrayBuilder::build`. -/
def build (b : WkbArrayBuilder) : BinaryArray :=
  ⟨b.offsetsBuilder, b.valueBuilder, finishNulls b.nullBuilder⟩

end WkbArrayBuilder

/-- `PointArrayBuilder`. -/
structure PointArrayBuilder where
  coords : List Float
  nulls : List Bool

namespace PointArrayBuilder

def new : PointArrayBuilder := ⟨[], []⟩

/-- `PointArrayBuilder::push_null`: placeholder coordinate (0, 0) plus
an unset validity bit. -/
def pushNull (b : PointArrayBuilder) : PointArrayBuilder :=
  ⟨b.coords ++ [0, 0], b.nulls ++ [false]⟩

/-- `PointArrayBuilder::push_geo_point`. -/
def pushGeoPoint (b : PointArrayBuilder) (value : Option GeoCoord) : PointArrayBuilder :=
  match value with
  | some c => ⟨b.coords ++ [c.x, c.y], b.nulls ++ [true]⟩
  | none => b.pushNull

def pushAll (b : PointArrayBuilder) (ops : List (Option GeoCoord)) : PointArrayBuilder :=
  ops.foldl pushGeoPoint b

/-- `PointArrayBuilder::build` (`expect` replaced by returning the
`try_new` result). -/
def buildE (b : PointArrayBuilder) : Except String PointArray := do
  let cb ← CoordBuffer.tryNew b.coords
  PointArray.tryNew cb (finishNulls b.nulls)

end PointArrayBuilder

/-- `LineStringArrayBuilder`. -/
structure LineStringArrayBuilder where
  coords : List Float
  geomOffsets : List Nat
  nulls : List Bool

namespace LineStringArrayBuilder

def new : LineStringArrayBuilder := ⟨[], [], []⟩

/-- `LineStringArrayBuilder::push_null`: repeats the running coordinate
count. -/
def pushNull (b : LineStringArrayBuilder) : LineStringArrayBuilder :=
  ⟨b.coords, b.geomOffsets ++ [b.coords.length / 2], b.nulls ++ [false]⟩

/-- `LineStringArrayBuilder::push_geo_line_string`: records the start
offset (the coordinate count before this row), then appends the
coordinates. -/
def pushGeoLineString (b : LineStringArrayBuilder) (value : Option GeoLineString) :
    LineStringArrayBuilder :=
  match value with
  | some ls =>
      ⟨b.coords ++ flatCoords ls, b.geomOffsets ++ [b.coords.length / 2],
        b.nulls ++ [true]⟩
  | none => b.pushNull

def pushAll (b : LineStringArrayBuilder) (ops : List (Option GeoLineString)) :
    LineStringArrayBuilder :=
  ops.foldl pushGeoLineString b

/-- `LineStringArrayBuilder::build`: appends the terminal sentinel offset
and validates through `try_new`. -/
def buildE (b : LineStringArrayBuilder) : Except String LineStringArray := do
  let cb ← CoordBuffer.tryNew b.coords
  LineStringArray.tryNew cb (b.geomOffsets ++ [cb.len]) (finishNulls b.nulls)

end LineStringArrayBuilder

/-- `MultiPointArrayBuilder`. -/
structure MultiPointArrayBuilder where
  coords : List Float
  geomOffsets : List Nat
  nulls : List Bool

namespace MultiPointArrayBuilder

def new : MultiPointArrayBuilder := ⟨[], [], []⟩

/-- `MultiPointArrayBuilder::push_null`. -/
def pushNull (b : MultiPointArrayBuilder) : MultiPointArrayBuilder :=
  ⟨b.coords, b.geomOffsets ++ [b.coords.length / 2], b.nulls ++ [false]⟩

/-- `MultiPointArrayBuilder::push_geo_multipoint`. -/
def pushGeoMultipoint (b : MultiPointArrayBuilder) (value : Option (List GeoCoord)) :
    MultiPointArrayBuilder :=
  match value with
  | some mp =>
      ⟨b.coords ++ flatCoords mp, b.geomOffsets ++ [b.coords.length / 2],
        b.nulls ++ [true]⟩
  | none => b.pushNull

def pushAll (b : MultiPointArrayBuilder) (ops : List (Option (List GeoCoord))) :
    MultiPointArrayBuilder :=
  ops.foldl pushGeoMultipoint b

/-- `MultiPointArrayBuilder::build`. -/
def buildE (b : MultiPointArrayBuilder) : Except String MultiPointArray := do
  let cb ← CoordBuffer.tryNew b.coords
  MultiPointArray.tryNew cb (b.geomOffsets ++ [cb.len]) (finishNulls b.nulls)

end MultiPointArrayBuilder

/-- `PolygonArrayBuilder`. -/
structure PolygonArrayBuilder where
  coords : List Float
  geomOffsets : List Nat
  ringOffsets : List Nat
  nulls : List Bool

namespace PolygonArrayBuilder

def new : PolygonArrayBuilder := ⟨[], [], [], []⟩

/-- `PolygonArrayBuilder::push_null`: repeats the last geometry offset. -/
def pushNull (b : PolygonArrayBuilder) : PolygonArrayBuilder :=
  { b with
    geomOffsets := b.geomOffsets ++ [b.geomOffsets.getLast?.getD 0]
    nulls := b.nulls ++ [false] }

/-- The offset-push snippet `push_geo_polygon` repeats for both
`ring_offsets` and `geom_offsets`: append `last_offset + length`, or 0
when the buffer is still empty. -/
def pushRunningOffset (offs : List Nat) (length : Nat) : List Nat :=
  match offs.getLast? with
  | some lastOffset => offs ++ [lastOffset + length]
  | none => offs ++ [0]

/-- `PolygonArrayBuilder::push_geo_polygon`, in source order: exterior
coordinates, exterior ring offset, the `geom_offsets` push (the source
comment reads "Total number of rings in this polygon", but the code adds
only `num_interior_rings()`), then each interior ring's offset followed
by its coordinates. -/
def pushGeoPolygon (b : PolygonArrayBuilder) (value : Option GeoPolygon) :
    PolygonArrayBuilder :=
  match value with
  | some polygon =>
      { coords := (polygon.interiors.foldl
          (fun (acc : List Nat × List Float) interiorRing =>
            (pushRunningOffset acc.1 interiorRing.length,
              acc.2 ++ flatCoords interiorRing))
          (pushRunningOffset b.ringOffsets polygon.exterior.length,
            b.coords ++ flatCoords polygon.exterior)).2
        geomOffsets := pushRunningOffset b.geomOffsets polygon.interiors.length
        ringOffsets := (polygon.interiors.foldl
          (fun (acc : List Nat × List Float) interiorRing =>
            (pushRunningOffset acc.1 interiorRing.length,
              acc.2 ++ flatCoords interiorRing))
          (pushRunningOffset b.ringOffsets polygon.exterior.length,
            b.coords ++ flatCoords polygon.exterior)).1
        nulls := b.nulls ++ [true] }
  | none => b.pushNull

def pushAll (b : PolygonArrayBuilder) (ops : List (Option GeoPolygon)) :
    PolygonArrayBuilder :=
  ops.foldl pushGeoPolygon b

/-- `PolygonArrayBuilder::build`: appends the ring sentinel
(`coords.len()`), then the geometry sentinel (`ring_offsets.len() - 1`),
and validates through `try_new`. -/
def buildE (b : PolygonArrayBuilder) : Except String PolygonArray := do
  let cb ← CoordBuffer.tryNew b.coords
  let ringOffsets1 := b.ringOffsets ++ [cb.len]
  let geomOffsets1 := b.geomOffsets ++ [ringOffsets1.length - 1]
  PolygonArray.tryNew cb geomOffsets1 ringOffsets1 (finishNulls b.nulls)

end PolygonArrayBuilder

/-! ## Claim theorems -/

theorem except_bind_ok {ε α β : Type} (a : α) (f : α → Except ε β) :
    (Except.ok a >>= f) = f a := rfl

theorem except_bind_error {ε α β : Type} (e : ε) (f : α → Except ε β) :
    ((Except.error e : Except ε α) >>= f) = .error e := rfl

/-- C3: `decode_wkb_dialect` returns `Ok(d)` for exactly the five bytes
`wkb_type_id(d)` (WKB=1, EWKB=2, GeoPackage=3, MySQL=4, SpatiaLite=5), so
`decode_wkb_dialect(wkb_type_id(d)) == d` for every dialect `d`, and it
returns an error for every byte outside `{1, 2, 3, 4, 5}`. -/
theorem dialect_codec_roundtrip :
    (∀ d : WkbDialect, decodeWkbDialect (wkbTypeId d) = .ok d) ∧
    (∀ b : Nat, isOk (decodeWkbDialect b) = true ↔
      (b = 1 ∨ b = 2 ∨ b = 3 ∨ b = 4 ∨ b = 5)) ∧
    (∀ (b : Nat) (d : WkbDialect), decodeWkbDialect b = .ok d → b = wkbTypeId d) := by
  refine ⟨fun d => by cases d <;> rfl, fun b => ?_, fun b d h => ?_⟩
  · simp only [decodeWkbDialect, wkbTypeId]
    split_ifs with h1 h2 h3 h4 h5 <;> simp_all [isOk]
  · revert h
    simp only [decodeWkbDialect, wkbTypeId]
    split_ifs <;> intro h <;> cases h <;> simp_all [wkbTypeId]

/-- Witness for C3 at byte 3: decoding succeeds and the decoded dialect
re-encodes to 3. -/
theorem dialect_codec_roundtrip_witness : (3 : Nat) = wkbTypeId .geopackage :=
  dialect_codec_roundtrip.2.2 3 .geopackage rfl

/-- C8: `CoordBuffer::slice(offset, length)` errors exactly when
`offset + length` exceeds the point count; on success, point `i` of the
slice (for `i < length`) is point `offset + i` of the original buffer. -/
theorem coord_buffer_slice_spec (cb : CoordBuffer) (offset length : Nat) :
    (isOk (cb.slice offset length) = true ↔ offset + length ≤ cb.len) ∧
    (∀ s, cb.slice offset length = .ok s → ∀ i, i < length →
      s.x i = cb.x (offset + i) ∧ s.y i = cb.y (offset + i)) := by
  constructor
  · simp only [CoordBuffer.slice]
    split_ifs with h <;> simp [isOk] <;> omega
  · intro s hs i hi
    simp only [CoordBuffer.slice] at hs
    split_ifs at hs with h
    cases hs
    have hx : i * 2 < length * 2 := by omega
    have hy : i * 2 + 1 < length * 2 := by omega
    constructor
    · show ((cb.coords.drop (offset * 2)).take (length * 2))[i * 2]? = _
      rw [List.getElem?_take_of_lt hx, List.getElem?_drop]
      show cb.coords[offset * 2 + i * 2]? = cb.coords[(offset + i) * 2]?
      congr 1
      omega
    · show ((cb.coords.drop (offset * 2)).take (length * 2))[i * 2 + 1]? = _
      rw [List.getElem?_take_of_lt hy, List.getElem?_drop]
      show cb.coords[offset * 2 + (i * 2 + 1)]? = cb.coords[(offset + i) * 2 + 1]?
      congr 1
      omega

/-- Concrete buffer for the C8 witness: points (0,1), (2,3). -/
def sliceWitnessBuffer : CoordBuffer := ⟨[0, 1, 2, 3]⟩

/-- Witness for C8: slicing `[(0,1),(2,3)]` at offset 1, length 1 and
reading point 0 reproduces point 1 of the original. -/
theorem coord_buffer_slice_spec_witness :
    (⟨[2, 3]⟩ : CoordBuffer).x 0 = sliceWitnessBuffer.x (1 + 0) ∧
    (⟨[2, 3]⟩ : CoordBuffer).y 0 = sliceWitnessBuffer.y (1 + 0) :=
  (coord_buffer_slice_spec sliceWitnessBuffer 1 1).2 ⟨[2, 3]⟩ rfl 0 (by decide)

/-- C10: the `Polygon` scalar view cannot represent an empty polygon:
`Polygon::try_new` errors whenever the row's ring range is empty
(`start_offset == end_offset`) or the `ring_offsets` buffer is empty, so
`PolygonArray::value(i)` on a valid (non-null) row owning zero rings is
an error rather than `Some(empty polygon)`. -/
theorem polygon_scalar_rejects_empty :
    (∀ (coords : CoordBuffer) (gOffsets rOffsets : OffsetList) (idx s : Nat),
        gOffsets[idx]? = some s → gOffsets[idx + 1]? = some s →
        isOk (Polygon.tryNew coords gOffsets rOffsets idx) = false) ∧
    (∀ (coords : CoordBuffer) (gOffsets : OffsetList) (idx : Nat),
        isOk (Polygon.tryNew coords gOffsets [] idx) = false) ∧
    (∀ (arr : PolygonArray) (idx s : Nat), arr.isNullAt idx = false →
        arr.geomOffsets[idx]? = some s →
        arr.geomOffsets[idx + 1]? = some s →
        isOk (arr.value idx) = false) := by
  refine ⟨fun coords gOffsets rOffsets idx s h1 h2 => ?_,
    fun coords gOffsets idx => ?_, fun arr idx s hn h1 h2 => ?_⟩
  · simp [Polygon.tryNew, computeStartEndOffset, h1, h2, except_bind_ok, isOk]
  · unfold Polygon.tryNew computeStartEndOffset
    cases hg : gOffsets[idx]? with
    | none => simp [except_bind_error, isOk]
    | some v =>
      cases hg2 : gOffsets[idx + 1]? with
      | none => simp [except_bind_error, isOk]
      | some w => simp [except_bind_ok, isOk]
  · simp [PolygonArray.value, hn, Polygon.tryNew, computeStartEndOffset, h1, h2,
      except_bind_ok, isOk, Except.map]

/-- Array for the C10 witness: one valid row whose ring range is empty. -/
def emptyRowPolygonArray : PolygonArray := ⟨⟨[]⟩, [0, 0], [0], none⟩

/-- Witness for C10: reading the zero-ring row errors. -/
theorem polygon_scalar_rejects_empty_witness :
    isOk (emptyRowPolygonArray.value 0) = false :=
  polygon_scalar_rejects_empty.2.2 emptyRowPolygonArray 0 0 rfl rfl rfl

/-- Counterexample to C4: a `MixedGeometryArray` of one row answers the
out-of-range index 1 with a successful `Ok(None)` instead of an error
(`value` returns `Ok(None)` whenever `type_ids.get(index)` misses). -/
def mixedOobExample : MixedGeometryArray :=
  ⟨[1], [0], none, some ⟨⟨[0, 1]⟩, none⟩, none, none, none, none, none⟩

/-- C4 counterexample: index 1 ≥ row count 1, yet the accessor succeeds
with "no value". -/
theorem mixed_out_of_range_ok_none :
    mixedOobExample.len = 1 ∧ mixedOobExample.value 1 = .ok none :=
  ⟨rfl, rfl⟩

/-- `compute_start_end_offset` fails past the last row of an offset
buffer: the end offset (or the start offset too) is missing. -/
theorem computeStartEndOffset_oob (offs : OffsetList) (i : Nat)
    (hi : offs.length - 1 ≤ i) : isOk (computeStartEndOffset offs i) = false := by
  have hend : offs[i + 1]? = none := by
    rw [List.getElem?_eq_none_iff]
    omega
  unfold computeStartEndOffset
  cases hg : offs[i]? <;> simp [hend, isOk]

/-- C4 (amended): every typed coordinate array without a null buffer
errors on an out-of-range index (`Point::try_new`'s bound check for
`PointArray`, `compute_start_end_offset` for the five offset-based
arrays), but `MixedGeometryArray::value` and the WKB array's `wkb`
answer an out-of-range index with a successful "no value"
(`Ok(None)` / `None`) rather than an error. -/
theorem out_of_range_row_behavior :
    (∀ (arr : PointArray), arr.nulls = none → ∀ i, arr.len ≤ i →
        isOk (arr.value i) = false) ∧
    (∀ (arr : LineStringArray), arr.nulls = none → ∀ i, arr.len ≤ i →
        isOk (arr.value i) = false) ∧
    (∀ (arr : PolygonArray), arr.nulls = none → ∀ i, arr.len ≤ i →
        isOk (arr.value i) = false) ∧
    (∀ (arr : MultiPointArray), arr.nulls = none → ∀ i, arr.len ≤ i →
        isOk (arr.value i) = false) ∧
    (∀ (arr : MultiLineStringArray), arr.nulls = none → ∀ i, arr.len ≤ i →
        isOk (arr.value i) = false) ∧
    (∀ (arr : MultiPolygonArray), arr.nulls = none → ∀ i, arr.len ≤ i →
        isOk (arr.value i) = false) ∧
    (∀ (arr : MixedGeometryArray) (i : Nat), arr.len ≤ i →
        arr.value i = .ok none) ∧
    (∀ (arr : BinaryArray) (i : Nat), arr.geomLen ≤ i → arr.wkb i = none) := by
  refine ⟨fun arr hn i hi => ?_, fun arr hn i hi => ?_, fun arr hn i hi => ?_,
    fun arr hn i hi => ?_, fun arr hn i hi => ?_, fun arr hn i hi => ?_,
    fun arr i hi => ?_, fun arr i hi => ?_⟩
  · have hnull : arr.isNullAt i = false := by
      simp [PointArray.isNullAt, isNullOpt, hn]
    unfold PointArray.len at hi
    simp [PointArray.value, hnull, Point.tryNew, hi, isOk, Except.map]
  · have hnull : arr.isNullAt i = false := by
      simp [LineStringArray.isNullAt, isNullOpt, hn]
    have hcse := computeStartEndOffset_oob arr.geomOffsets i
      (by unfold LineStringArray.len at hi; omega)
    cases hc : computeStartEndOffset arr.geomOffsets i with
    | ok v => rw [hc] at hcse; simp [isOk] at hcse
    | error e =>
        simp [LineStringArray.value, hnull, LineString.tryNew, hc,
          Except.map, isOk]
  · have hnull : arr.isNullAt i = false := by
      simp [PolygonArray.isNullAt, isNullOpt, hn]
    have hcse := computeStartEndOffset_oob arr.geomOffsets i
      (by unfold PolygonArray.len at hi; omega)
    cases hc : computeStartEndOffset arr.geomOffsets i with
    | ok v => rw [hc] at hcse; simp [isOk] at hcse
    | error e =>
        simp [PolygonArray.value, hnull, Polygon.tryNew, hc,
          except_bind_error, Except.map, isOk]
  · have hnull : arr.isNullAt i = false := by
      simp [MultiPointArray.isNullAt, isNullOpt, hn]
    have hcse := computeStartEndOffset_oob arr.geomOffsets i
      (by unfold MultiPointArray.len at hi; omega)
    cases hc : computeStartEndOffset arr.geomOffsets i with
    | ok v => rw [hc] at hcse; simp [isOk] at hcse
    | error e =>
        simp [MultiPointArray.value, hnull, MultiPoint.tryNew, hc,
          Except.map, isOk]
  · have hnull : arr.isNullAt i = false := by
      simp [MultiLineStringArray.isNullAt, isNullOpt, hn]
    have hcse := computeStartEndOffset_oob arr.geomOffsets i
      (by unfold MultiLineStringArray.len at hi; omega)
    cases hc : computeStartEndOffset arr.geomOffsets i with
    | ok v => rw [hc] at hcse; simp [isOk] at hcse
    | error e =>
        simp [MultiLineStringArray.value, hnull, MultiLineString.tryNew, hc,
          Except.map, isOk]
  · have hnull : arr.isNullAt i = false := by
      simp [MultiPolygonArray.isNullAt, isNullOpt, hn]
    have hcse := computeStartEndOffset_oob arr.geomOffsets i
      (by unfold MultiPolygonArray.len at hi; omega)
    cases hc : computeStartEndOffset arr.geomOffsets i with
    | ok v => rw [hc] at hcse; simp [isOk] at hcse
    | error e =>
        simp [MultiPolygonArray.value, hnull, MultiPolygonScalar.tryNew, hc,
          Except.map, isOk]
  · have : arr.typeIds[i]? = none := by
      rw [List.getElem?_eq_none_iff]
      exact hi
    simp [MixedGeometryArray.value, this]
  · simp only [BinaryArray.wkb]
    have : i ≥ arr.geomLen := hi
    simp [this]

/-- Concrete arrays for the C4 witness, one per typed shape. -/
def oobPointArray : PointArray := ⟨⟨[0, 1]⟩, none⟩

def oobLineStringArray : LineStringArray := ⟨⟨[0, 1]⟩, [0, 1], none⟩

def oobPolygonArray : PolygonArray := ⟨⟨[0, 1]⟩, [0, 1], [0, 1], none⟩

def oobMultiPointArray : MultiPointArray := ⟨⟨[0, 1]⟩, [0, 1], none⟩

def oobMultiLineStringArray : MultiLineStringArray :=
  ⟨⟨[0, 1]⟩, [0, 1], [0, 1], none⟩

def oobMultiPolygonArray : MultiPolygonArray :=
  ⟨⟨[0, 1]⟩, [0, 1], [0, 1], [0, 1], none⟩

/-- The C7 scenario rows: `[Some([(0,1),(1,2)]), None, Some([(3,4),(5,6)])]`. -/
def c7Rows : List (Option GeoLineString) :=
  [some [⟨0, 1⟩, ⟨1, 2⟩], none, some [⟨3, 4⟩, ⟨5, 6⟩]]

/-- C7: the `LineStringArray` built from
`[Some([(0,1),(1,2)]), None, Some([(3,4),(5,6)])]` reports `len() == 3`
and iterating its geometries yields exactly
`[Some(LineString[(0,1),(1,2)]), None, Some(LineString[(3,4),(5,6)])]`. -/
theorem linestring_array_roundtrip_concrete :
    ((LineStringArrayBuilder.new.pushAll c7Rows).buildE).map
        (fun arr => (arr.len, arr.iterGeo)) =
      .ok (3, .ok [some (.lineString [⟨0, 1⟩, ⟨1, 2⟩]), none,
        some (.lineString [⟨3, 4⟩, ⟨5, 6⟩])]) := rfl

/-- Membership from a successful indexed lookup. -/
theorem mem_of_lookup {α : Type} {l : List α} {i : Nat} {a : α}
    (h : l[i]? = some a) : a ∈ l := by
  obtain ⟨hlt, he⟩ := List.getElem?_eq_some_iff.mp h
  exact he ▸ List.getElem_mem hlt

/-- A bit list containing `false` survives `finishNulls`. -/
theorem finishNulls_of_false {bits : List Bool} {i : Nat}
    (h : bits[i]? = some false) : finishNulls bits = some bits := by
  unfold finishNulls
  rw [if_neg]
  intro hall
  rw [List.all_eq_true] at hall
  exact absurd (hall false (mem_of_lookup h)) (by simp)

/-- `checkNulls` accepts the output of `finishNulls` whenever the bit
count matches the row count. -/
theorem checkNulls_finishNulls (bits : List Bool) (n : Nat) (h : bits.length = n) :
    checkNulls (finishNulls bits) n = .ok () := by
  unfold finishNulls checkNulls
  split_ifs <;> simp_all

/-- Flattening rows of width 2: total length. -/
theorem flatten_pairs_length (rows : List (List Float))
    (h2 : ∀ r ∈ rows, r.length = 2) : rows.flatten.length = 2 * rows.length := by
  induction rows with
  | nil => rfl
  | cons r rest ih =>
    have hr : r.length = 2 := h2 r (List.mem_cons_self r rest)
    have := ih fun x hx => h2 x (List.mem_cons_of_mem r hx)
    simp [List.flatten_cons, hr, this]
    omega

/-- Flattening rows of width 2: slot `i*2` / `i*2+1` reads row `i`. -/
theorem flatten_pairs_lookup (rows : List (List Float))
    (h2 : ∀ r ∈ rows, r.length = 2) (i : Nat) (row : List Float)
    (hrow : rows[i]? = some row) :
    rows.flatten[i * 2]? = row[0]? ∧ rows.flatten[i * 2 + 1]? = row[1]? := by
  induction rows generalizing i with
  | nil => simp at hrow
  | cons r rest ih =>
    have hr : r.length = 2 := h2 r (List.mem_cons_self r rest)
    cases i with
    | zero =>
      simp only [List.getElem?_cons_zero, Option.some.injEq] at hrow
      subst hrow
      constructor
      · rw [List.flatten_cons, List.getElem?_append]
        simp [hr]
      · rw [List.flatten_cons, List.getElem?_append]
        simp [hr]
    | succ j =>
      simp only [List.getElem?_cons_succ] at hrow
      have hrec := ih (fun x hx => h2 x (List.mem_cons_of_mem r hx)) j hrow
      have e1 : (j + 1) * 2 = r.length + j * 2 := by omega
      have e2 : (j + 1) * 2 + 1 = r.length + (j * 2 + 1) := by omega
      constructor
      · rw [List.flatten_cons, e1, List.getElem?_append_right (by omega)]
        simpa using hrec.1
      · rw [List.flatten_cons, e2, List.getElem?_append_right (by omega)]
        simpa using hrec.2

/-- Coordinate slots appended by one `PointArrayBuilder` push:
the point's (x, y), or the placeholder (0, 0) for a null. -/
def pointRowCoords : Option GeoCoord → List Float
  | some c => [c.x, c.y]
  | none => [0, 0]

/-- Closed form of the `PointArrayBuilder` state after a push sequence. -/
theorem pointPushAll_state (ops : List (Option GeoCoord)) (b : PointArrayBuilder) :
    (b.pushAll ops).coords = b.coords ++ (ops.map pointRowCoords).flatten ∧
    (b.pushAll ops).nulls = b.nulls ++ ops.map Option.isSome := by
  induction ops generalizing b with
  | nil => simp [PointArrayBuilder.pushAll]
  | cons o rest ih =>
    have hstep : b.pushAll (o :: rest) = (b.pushGeoPoint o).pushAll rest := rfl
    rw [hstep]
    obtain ⟨hc, hn⟩ := ih (b.pushGeoPoint o)
    cases o <;>
      simp_all [PointArrayBuilder.pushGeoPoint, PointArrayBuilder.pushNull,
        pointRowCoords]

/-- C9: `PointArrayBuilder::push_null` stores the placeholder coordinate
(0, 0), so after any push sequence the built `PointArray`'s coordinate
count equals its row count, and a null row reads back as `None` while
real coordinate storage (0, 0) backs it. -/
theorem point_builder_null_placeholder (ops : List (Option GeoCoord)) :
    ∃ arr : PointArray, (PointArrayBuilder.new.pushAll ops).buildE = .ok arr ∧
      arr.len = ops.length ∧ arr.coords.len = ops.length ∧
      (∀ i, ops[i]? = some none →
        arr.value i = .ok none ∧ arr.coords.x i = some 0 ∧ arr.coords.y i = some 0) := by
  obtain ⟨hc, hn⟩ := pointPushAll_state ops PointArrayBuilder.new
  simp only [show PointArrayBuilder.new.coords = [] from rfl,
    show PointArrayBuilder.new.nulls = [] from rfl, List.nil_append] at hc hn
  have hwidth : ∀ r ∈ ops.map pointRowCoords, r.length = 2 := by
    intro r hr
    obtain ⟨o, _, rfl⟩ := List.mem_map.mp hr
    cases o <;> rfl
  have hclen : (ops.map pointRowCoords).flatten.length = 2 * ops.length := by
    rw [flatten_pairs_length _ hwidth, List.length_map]
  refine ⟨⟨⟨(ops.map pointRowCoords).flatten⟩, finishNulls (ops.map Option.isSome)⟩,
    ?_, ?_, ?_, ?_⟩
  · unfold PointArrayBuilder.buildE
    rw [hc, hn]
    have hok : CoordBuffer.tryNew (ops.map pointRowCoords).flatten =
        .ok ⟨(ops.map pointRowCoords).flatten⟩ := by
      unfold CoordBuffer.tryNew
      rw [if_neg]
      simp [hclen, Nat.mul_mod_right]
    rw [hok, except_bind_ok]
    unfold PointArray.tryNew
    rw [checkNulls_finishNulls _ _ (by simp [CoordBuffer.len, hclen]),
      except_bind_ok]
  · simp [PointArray.len, CoordBuffer.len, hclen]
  · simp [CoordBuffer.len, hclen]
  · intro i hi
    have hrow : (ops.map pointRowCoords)[i]? = some [0, 0] := by
      rw [List.getElem?_map, hi]; rfl
    have hbit : (ops.map Option.isSome)[i]? = some false := by
      rw [List.getElem?_map, hi]; rfl
    obtain ⟨hx, hy⟩ := flatten_pairs_lookup _ hwidth i _ hrow
    refine ⟨?_, ?_, ?_⟩
    · unfold PointArray.value PointArray.isNullAt isNullOpt
      rw [finishNulls_of_false hbit]
      simp [isNullBit, List.getD_eq_getElem?_getD, hbit]
    · simpa using hx
    · simpa using hy

/-- Witness for C9 at `[Some((5,6)), None]`, reading null row 1. -/
theorem point_builder_null_placeholder_witness :
    ∃ arr : PointArray,
      (PointArrayBuilder.new.pushAll [some ⟨5, 6⟩, none]).buildE = .ok arr ∧
      arr.value 1 = .ok none ∧ arr.coords.x 1 = some 0 :=
  match point_builder_null_placeholder [some ⟨5, 6⟩, none] with
  | ⟨arr, hb, _, _, h⟩ => ⟨arr, hb, (h 1 rfl).1, (h 1 rfl).2.1⟩

/-- Membership from a successful `getLast?`. -/
theorem mem_of_getLast_lookup {α : Type} {l : List α} {a : α}
    (h : l.getLast? = some a) : a ∈ l := by
  have hx : a ∈ l.getLast? := h
  obtain ⟨hne, he⟩ := List.mem_getLast?_eq_getLast hx
  exact he ▸ List.getLast_mem hne

/-- Appending a value no smaller than the last element keeps an offset
list non-decreasing. -/
theorem chain_le_concat {offs : List Nat} {a : Nat}
    (hch : List.Chain' (· ≤ ·) offs)
    (hlast : ∀ x, offs.getLast? = some x → x ≤ a) :
    List.Chain' (· ≤ ·) (offs ++ [a]) := by
  rw [List.chain'_append]
  refine ⟨hch, List.chain'_singleton a, fun x hx y hy => ?_⟩
  simp only [List.head?_cons, Option.mem_def, Option.some.injEq] at hy
  subst hy
  exact hlast x hx

/-- Invariant tying an offset list to the flat coordinate storage it
partitions: even storage, non-decreasing offsets, every offset bounded
by the point count. -/
def coordOffsetsInv (coords : List Float) (offs : List Nat) : Prop :=
  coords.length % 2 = 0 ∧ List.Chain' (· ≤ ·) offs ∧
    ∀ x ∈ offs, x ≤ coords.length / 2

theorem flatCoords_length (cs : List GeoCoord) :
    (flatCoords cs).length = 2 * cs.length := by
  unfold flatCoords
  rw [flatten_pairs_length, List.length_map]
  intro r hr
  obtain ⟨c, _, rfl⟩ := List.mem_map.mp hr
  rfl

/-- The builders append a new offset equal to the current point count
(start-offset convention); the invariant is preserved. -/
theorem coordOffsetsInv_push_current {coords : List Float} {offs : List Nat}
    (row : List Float) (hrow : row.length % 2 = 0)
    (h : coordOffsetsInv coords offs) :
    coordOffsetsInv (coords ++ row) (offs ++ [coords.length / 2]) := by
  obtain ⟨he, hch, hb⟩ := h
  refine ⟨by simp [List.length_append]; omega, ?_, ?_⟩
  · exact chain_le_concat hch fun x hx => hb x (mem_of_getLast_lookup hx)
  · intro x hx
    rcases List.mem_append.mp hx with hmem | hmem
    · have := hb x hmem
      simp only [List.length_append]
      omega
    · simp only [List.mem_singleton] at hmem
      subst hmem
      simp only [List.length_append]
      omega

/-- `pushRunningOffset` always appends exactly one offset. -/
theorem pushRunningOffset_length (offs : List Nat) (c : Nat) :
    (PolygonArrayBuilder.pushRunningOffset offs c).length = offs.length + 1 := by
  unfold PolygonArrayBuilder.pushRunningOffset
  cases offs.getLast? <;> simp

/-- The `ring_offsets` update (end-offset `last + ring_length`, or 0 for
the first ring) together with the ring's coordinates preserves the
invariant. -/
theorem coordOffsetsInv_pushRing {coords : List Float} {ring : List Nat}
    (r : List GeoCoord) (h : coordOffsetsInv coords ring) :
    coordOffsetsInv (coords ++ flatCoords r)
      (PolygonArrayBuilder.pushRunningOffset ring r.length) := by
  obtain ⟨he, hch, hb⟩ := h
  have hflat : (flatCoords r).length = 2 * r.length := flatCoords_length r
  unfold PolygonArrayBuilder.pushRunningOffset
  cases hg : ring.getLast? with
  | none =>
      refine ⟨by simp only [List.length_append]; omega, ?_, ?_⟩
      · exact chain_le_concat hch fun x hx => by rw [hg] at hx; cases hx
      · intro x hx
        rcases List.mem_append.mp hx with hmem | hmem
        · have := hb x hmem; simp only [List.length_append]; omega
        · simp only [List.mem_singleton] at hmem; omega
  | some last =>
      have hlastle : last ≤ coords.length / 2 := hb last (mem_of_getLast_lookup hg)
      refine ⟨by simp only [List.length_append]; omega, ?_, ?_⟩
      · refine chain_le_concat hch fun x hx => ?_
        rw [hg] at hx
        cases hx
        omega
      · intro x hx
        rcases List.mem_append.mp hx with hmem | hmem
        · have := hb x hmem; simp only [List.length_append]; omega
        · simp only [List.mem_singleton] at hmem
          subst hmem
          simp only [List.length_append]
          omega

/-- The interior-ring fold of `push_geo_polygon` preserves the invariant
and grows `ring_offsets` by one entry per interior ring. -/
theorem coordOffsetsInv_interiorFold (interiors : List (List GeoCoord))
    (acc : List Nat × List Float) (h : coordOffsetsInv acc.2 acc.1) :
    coordOffsetsInv
      (interiors.foldl
        (fun (a : List Nat × List Float) interiorRing =>
          (PolygonArrayBuilder.pushRunningOffset a.1 interiorRing.length,
            a.2 ++ flatCoords interiorRing)) acc).2
      (interiors.foldl
        (fun (a : List Nat × List Float) interiorRing =>
          (PolygonArrayBuilder.pushRunningOffset a.1 interiorRing.length,
            a.2 ++ flatCoords interiorRing)) acc).1 ∧
    (interiors.foldl
        (fun (a : List Nat × List Float) interiorRing =>
          (PolygonArrayBuilder.pushRunningOffset a.1 interiorRing.length,
            a.2 ++ flatCoords interiorRing)) acc).1.length =
      acc.1.length + interiors.length := by
  induction interiors generalizing acc with
  | nil => exact ⟨h, rfl⟩
  | cons r rest ih =>
    simp only [List.foldl_cons]
    have hstep := coordOffsetsInv_pushRing r h
    obtain ⟨h1, h2⟩ := ih (PolygonArrayBuilder.pushRunningOffset acc.1 r.length,
      acc.2 ++ flatCoords r) hstep
    refine ⟨h1, ?_⟩
    rw [h2]
    simp only [pushRunningOffset_length, List.length_cons]
    omega

/-- Builder invariant for `LineStringArrayBuilder`. -/
def lsBuilderInv (b : LineStringArrayBuilder) : Prop :=
  coordOffsetsInv b.coords b.geomOffsets ∧ b.nulls.length = b.geomOffsets.length

theorem lsBuilderInv_pushAll (ops : List (Option GeoLineString))
    (b : LineStringArrayBuilder) (h : lsBuilderInv b) :
    lsBuilderInv (b.pushAll ops) := by
  induction ops generalizing b with
  | nil => exact h
  | cons o rest ih =>
    refine ih (b.pushGeoLineString o) ?_
    obtain ⟨hco, hn⟩ := h
    cases o with
    | none =>
        refine ⟨?_, ?_⟩
        · show coordOffsetsInv b.coords (b.geomOffsets ++ [b.coords.length / 2])
          have := coordOffsetsInv_push_current [] rfl hco
          rwa [List.append_nil] at this
        · show (b.nulls ++ [false]).length =
            (b.geomOffsets ++ [b.coords.length / 2]).length
          simp [hn]
    | some ls =>
        refine ⟨?_, ?_⟩
        · show coordOffsetsInv (b.coords ++ flatCoords ls)
            (b.geomOffsets ++ [b.coords.length / 2])
          exact coordOffsetsInv_push_current (flatCoords ls)
            (by rw [flatCoords_length]; omega) hco
        · show (b.nulls ++ [true]).length =
            (b.geomOffsets ++ [b.coords.length / 2]).length
          simp [hn]

/-- Builder invariant for `MultiPointArrayBuilder`. -/
def mpBuilderInv (b : MultiPointArrayBuilder) : Prop :=
  coordOffsetsInv b.coords b.geomOffsets ∧ b.nulls.length = b.geomOffsets.length

theorem mpBuilderInv_pushAll (ops : List (Option (List GeoCoord)))
    (b : MultiPointArrayBuilder) (h : mpBuilderInv b) :
    mpBuilderInv (b.pushAll ops) := by
  induction ops generalizing b with
  | nil => exact h
  | cons o rest ih =>
    refine ih (b.pushGeoMultipoint o) ?_
    obtain ⟨hco, hn⟩ := h
    cases o with
    | none =>
        refine ⟨?_, ?_⟩
        · show coordOffsetsInv b.coords (b.geomOffsets ++ [b.coords.length / 2])
          have := coordOffsetsInv_push_current [] rfl hco
          rwa [List.append_nil] at this
        · show (b.nulls ++ [false]).length =
            (b.geomOffsets ++ [b.coords.length / 2]).length
          simp [hn]
    | some mp =>
        refine ⟨?_, ?_⟩
        · show coordOffsetsInv (b.coords ++ flatCoords mp)
            (b.geomOffsets ++ [b.coords.length / 2])
          exact coordOffsetsInv_push_current (flatCoords mp)
            (by rw [flatCoords_length]; omega) hco
        · show (b.nulls ++ [true]).length =
            (b.geomOffsets ++ [b.coords.length / 2]).length
          simp [hn]

/-- Builder invariant for `PolygonArrayBuilder`. -/
def polyBuilderInv (b : PolygonArrayBuilder) : Prop :=
  coordOffsetsInv b.coords b.ringOffsets ∧
  List.Chain' (· ≤ ·) b.geomOffsets ∧
  (∀ x ∈ b.geomOffsets, x ≤ b.ringOffsets.length) ∧
  b.nulls.length = b.geomOffsets.length

theorem polyBuilderInv_pushAll (ops : List (Option GeoPolygon))
    (b : PolygonArrayBuilder) (h : polyBuilderInv b) :
    polyBuilderInv (b.pushAll ops) := by
  induction ops generalizing b with
  | nil => exact h
  | cons o rest ih =>
    refine ih (b.pushGeoPolygon o) ?_
    obtain ⟨hco, hgch, hgb, hn⟩ := h
    cases o with
    | none =>
        refine ⟨hco, ?_, ?_, ?_⟩
        · show List.Chain' (· ≤ ·)
            (b.geomOffsets ++ [b.geomOffsets.getLast?.getD 0])
          refine chain_le_concat hgch fun x hx => ?_
          simp [hx]
        · show ∀ x ∈ b.geomOffsets ++ [b.geomOffsets.getLast?.getD 0],
            x ≤ b.ringOffsets.length
          intro x hx
          rcases List.mem_append.mp hx with hmem | hmem
          · exact hgb x hmem
          · simp only [List.mem_singleton] at hmem
            subst hmem
            cases hg : b.geomOffsets.getLast? with
            | none => simp
            | some last => simpa using hgb last (mem_of_getLast_lookup hg)
        · show (b.nulls ++ [false]).length =
            (b.geomOffsets ++ [b.geomOffsets.getLast?.getD 0]).length
          simp [hn]
    | some p =>
        have hext := coordOffsetsInv_pushRing p.exterior hco
        obtain ⟨hfold, hfoldLen⟩ :=
          coordOffsetsInv_interiorFold p.interiors
            (PolygonArrayBuilder.pushRunningOffset b.ringOffsets p.exterior.length,
              b.coords ++ flatCoords p.exterior) hext
        have hstlen : (p.interiors.foldl
            (fun (acc : List Nat × List Float) interiorRing =>
              (PolygonArrayBuilder.pushRunningOffset acc.1 interiorRing.length,
                acc.2 ++ flatCoords interiorRing))
            (PolygonArrayBuilder.pushRunningOffset b.ringOffsets p.exterior.length,
              b.coords ++ flatCoords p.exterior)).1.length =
            b.ringOffsets.length + 1 + p.interiors.length := by
          rw [hfoldLen]
          simp [pushRunningOffset_length]
        refine ⟨hfold, ?_, ?_, ?_⟩
        · show List.Chain' (· ≤ ·)
            (PolygonArrayBuilder.pushRunningOffset b.geomOffsets p.interiors.length)
          unfold PolygonArrayBuilder.pushRunningOffset
          cases hg : b.geomOffsets.getLast? with
          | none => exact chain_le_concat hgch fun x hx => by rw [hg] at hx; cases hx
          | some last =>
              refine chain_le_concat hgch fun x hx => ?_
              rw [hg] at hx
              cases hx
              omega
        · show ∀ x ∈
            PolygonArrayBuilder.pushRunningOffset b.geomOffsets p.interiors.length,
            x ≤ (p.interiors.foldl
              (fun (acc : List Nat × List Float) interiorRing =>
                (PolygonArrayBuilder.pushRunningOffset acc.1 interiorRing.length,
                  acc.2 ++ flatCoords interiorRing))
              (PolygonArrayBuilder.pushRunningOffset b.ringOffsets p.exterior.length,
                b.coords ++ flatCoords p.exterior)).1.length
          rw [hstlen]
          unfold PolygonArrayBuilder.pushRunningOffset
          cases hg : b.geomOffsets.getLast? with
          | none =>
              intro x hx
              rcases List.mem_append.mp hx with hmem | hmem
              · have := hgb x hmem; omega
              · simp only [List.mem_singleton] at hmem; omega
          | some last =>
              have hlast := hgb last (mem_of_getLast_lookup hg)
              intro x hx
              rcases List.mem_append.mp hx with hmem | hmem
              · have := hgb x hmem; omega
              · simp only [List.mem_singleton] at hmem
                subst hmem
                omega
        · show (b.nulls ++ [true]).length =
            (PolygonArrayBuilder.pushRunningOffset b.geomOffsets
              p.interiors.length).length
          simp [pushRunningOffset_length, hn]

/-- C5: every offset buffer a typed array builder's `build()` produces is
monotonically non-decreasing and its last element is the length of the
buffer one level below (the coordinate count for offsets over
coordinates, the child offset-buffer length minus one for higher
levels), so `build()`'s internal `try_new` validation succeeds for every
push sequence.  Shown for the three builders with offset buffers and a
`build()` in the source: `LineStringArrayBuilder`,
`MultiPointArrayBuilder` and `PolygonArrayBuilder`. -/
theorem builder_offsets_monotone :
    (∀ ops : List (Option GeoLineString), ∃ arr : LineStringArray,
        (LineStringArrayBuilder.new.pushAll ops).buildE = .ok arr ∧
        List.Chain' (· ≤ ·) arr.geomOffsets ∧
        arr.geomOffsets.getLast? = some arr.coords.len) ∧
    (∀ ops : List (Option (List GeoCoord)), ∃ arr : MultiPointArray,
        (MultiPointArrayBuilder.new.pushAll ops).buildE = .ok arr ∧
        List.Chain' (· ≤ ·) arr.geomOffsets ∧
        arr.geomOffsets.getLast? = some arr.coords.len) ∧
    (∀ ops : List (Option GeoPolygon), ∃ arr : PolygonArray,
        (PolygonArrayBuilder.new.pushAll ops).buildE = .ok arr ∧
        List.Chain' (· ≤ ·) arr.geomOffsets ∧
        List.Chain' (· ≤ ·) arr.ringOffsets ∧
        arr.ringOffsets.getLast? = some arr.coords.len ∧
        arr.geomOffsets.getLast? = some (arr.ringOffsets.length - 1)) := by
  refine ⟨fun ops => ?_, fun ops => ?_, fun ops => ?_⟩
  · obtain ⟨⟨he, hch, hb⟩, hn⟩ :=
      lsBuilderInv_pushAll ops LineStringArrayBuilder.new
        ⟨⟨rfl, List.chain'_nil, fun x hx => absurd hx (List.not_mem_nil x)⟩, rfl⟩
    set st := LineStringArrayBuilder.new.pushAll ops with hst
    refine ⟨⟨⟨st.coords⟩, st.geomOffsets ++ [st.coords.length / 2],
      finishNulls st.nulls⟩, ?_, ?_, ?_⟩
    · unfold LineStringArrayBuilder.buildE
      rw [show CoordBuffer.tryNew st.coords = .ok ⟨st.coords⟩ by
        unfold CoordBuffer.tryNew; simp [he], except_bind_ok]
      unfold LineStringArray.tryNew
      rw [checkNulls_finishNulls _ _ (by simp [hn]), except_bind_ok]
      rw [if_neg (by rw [List.getLast?_concat]; exact fun hcon => hcon rfl)]
      rfl
    · exact chain_le_concat hch fun x hx => hb x (mem_of_getLast_lookup hx)
    · exact List.getLast?_concat _
  · obtain ⟨⟨he, hch, hb⟩, hn⟩ :=
      mpBuilderInv_pushAll ops MultiPointArrayBuilder.new
        ⟨⟨rfl, List.chain'_nil, fun x hx => absurd hx (List.not_mem_nil x)⟩, rfl⟩
    set st := MultiPointArrayBuilder.new.pushAll ops with hst
    refine ⟨⟨⟨st.coords⟩, st.geomOffsets ++ [st.coords.length / 2],
      finishNulls st.nulls⟩, ?_, ?_, ?_⟩
    · unfold MultiPointArrayBuilder.buildE
      rw [show CoordBuffer.tryNew st.coords = .ok ⟨st.coords⟩ by
        unfold CoordBuffer.tryNew; simp [he], except_bind_ok]
      unfold MultiPointArray.tryNew
      rw [checkNulls_finishNulls _ _ (by simp [hn]), except_bind_ok]
      rw [if_neg (by rw [List.getLast?_concat]; exact fun hcon => hcon rfl)]
      rfl
    · exact chain_le_concat hch fun x hx => hb x (mem_of_getLast_lookup hx)
    · exact List.getLast?_concat _
  · obtain ⟨⟨he, hrch, hrb⟩, hgch, hgb, hn⟩ :=
      polyBuilderInv_pushAll ops PolygonArrayBuilder.new
        ⟨⟨rfl, List.chain'_nil, fun x hx => absurd hx (List.not_mem_nil x)⟩,
          List.chain'_nil, fun x hx => absurd hx (List.not_mem_nil x), rfl⟩
    set st := PolygonArrayBuilder.new.pushAll ops with hst
    refine ⟨⟨⟨st.coords⟩, st.geomOffsets ++ [st.ringOffsets.length],
      st.ringOffsets ++ [st.coords.length / 2], finishNulls st.nulls⟩,
      ?_, ?_, ?_, ?_, ?_⟩
    · unfold PolygonArrayBuilder.buildE
      rw [show CoordBuffer.tryNew st.coords = .ok ⟨st.coords⟩ by
        unfold CoordBuffer.tryNew; simp [he], except_bind_ok]
      show PolygonArray.tryNew _ (st.geomOffsets ++ [(st.ringOffsets ++ [CoordBuffer.len ⟨st.coords⟩]).length - 1]) _ _ = _
      rw [show (st.ringOffsets ++ [CoordBuffer.len ⟨st.coords⟩]).length - 1 =
        st.ringOffsets.length by simp]
      unfold PolygonArray.tryNew
      rw [checkNulls_finishNulls _ _ (by simp [hn]), except_bind_ok]
      rw [if_neg (by rw [List.getLast?_concat]; exact fun hcon => hcon rfl)]
      rw [if_neg (by
        rw [List.getLast?_concat]
        intro hcon
        apply hcon
        congr 1
        simp)]
      rfl
    · exact chain_le_concat hgch fun x hx => hgb x (mem_of_getLast_lookup hx)
    · exact chain_le_concat hrch fun x hx => hrb x (mem_of_getLast_lookup hx)
    · exact List.getLast?_concat _
    · rw [List.getLast?_concat]
      congr 2
      simp

/-- Concatenation of the non-null payloads of an append sequence. -/
def payloadConcat (ops : List (Option (List Nat))) : List Nat :=
  (ops.filterMap id).flatten

theorem payloadConcat_cons_some (w : List Nat) (rest : List (Option (List Nat))) :
    payloadConcat (some w :: rest) = w ++ payloadConcat rest := by
  simp [payloadConcat]

theorem payloadConcat_cons_none (rest : List (Option (List Nat))) :
    payloadConcat (none :: rest) = payloadConcat rest := by
  simp [payloadConcat]

/-- The offsets the WKB builder records for an append sequence whose
payload bytes start at position `start` (one end offset per row; a null
row repeats the running position). -/
def offsetsFor (start : Nat) : List (Option (List Nat)) → List Nat
  | [] => []
  | some p :: rest => (start + p.length) :: offsetsFor (start + p.length) rest
  | none :: rest => start :: offsetsFor start rest

theorem offsetsFor_length (ops : List (Option (List Nat))) (start : Nat) :
    (offsetsFor start ops).length = ops.length := by
  induction ops generalizing start with
  | nil => rfl
  | cons o rest ih => cases o <;> simp [offsetsFor, ih]

/-- Closed form of the WKB builder state after an append sequence. -/
theorem wkbAppendAll_state (ops : List (Option (List Nat))) (b : WkbArrayBuilder) :
    b.appendAll ops = ⟨b.dialect, b.valueBuilder ++ payloadConcat ops,
      b.offsetsBuilder ++ offsetsFor b.valueBuilder.length ops,
      b.nullBuilder ++ ops.map Option.isSome⟩ := by
  induction ops generalizing b with
  | nil => simp [WkbArrayBuilder.appendAll, payloadConcat, offsetsFor]
  | cons o rest ih =>
    have hstep : b.appendAll (o :: rest) = (b.appendOpt o).appendAll rest := rfl
    rw [hstep, ih]
    cases o with
    | some w =>
        simp [WkbArrayBuilder.appendOpt, WkbArrayBuilder.internalAppendWkb,
          payloadConcat_cons_some, offsetsFor, List.append_assoc,
          List.length_append]
    | none =>
        simp [WkbArrayBuilder.appendOpt, WkbArrayBuilder.appendNull,
          payloadConcat_cons_none, offsetsFor]

/-- Reading row `i`'s offset window out of the recorded offsets and
slicing the concatenated byte store recovers exactly payload `i`. -/
theorem wkb_payload_extract (ops : List (Option (List Nat))) (vpre : List Nat)
    (i : Nat) (p : List Nat) (hop : ops[i]? = some (some p)) :
    ∃ s e, (vpre.length :: offsetsFor vpre.length ops)[i]? = some s ∧
      (vpre.length :: offsetsFor vpre.length ops)[i + 1]? = some e ∧
      ((vpre ++ payloadConcat ops).drop s).take (e - s) = p := by
  induction ops generalizing vpre i with
  | nil => simp at hop
  | cons o rest ih =>
    cases i with
    | zero =>
        simp only [List.getElem?_cons_zero, Option.some.injEq] at hop
        subst hop
        refine ⟨vpre.length, vpre.length + p.length, rfl, ?_, ?_⟩
        · rw [List.getElem?_cons_succ]
          simp [offsetsFor]
        rw [payloadConcat_cons_some, ← List.append_assoc, Nat.add_sub_cancel_left]
        rw [show ((vpre ++ p) ++ payloadConcat rest).drop vpre.length =
          (vpre ++ (p ++ payloadConcat rest)).drop vpre.length by
            rw [List.append_assoc]]
        rw [List.drop_left, List.take_left]
    | succ j =>
        cases o with
        | some q =>
            simp only [List.getElem?_cons_succ] at hop
            obtain ⟨s, e, h1, h2, h3⟩ := ih (vpre ++ q) j hop
            simp only [List.length_append] at h1 h2
            refine ⟨s, e, ?_, ?_, ?_⟩
            · rw [List.getElem?_cons_succ]
              show ((vpre.length + q.length) ::
                offsetsFor (vpre.length + q.length) rest)[j]? = some s
              exact h1
            · rw [List.getElem?_cons_succ]
              show ((vpre.length + q.length) ::
                offsetsFor (vpre.length + q.length) rest)[j + 1]? = some e
              exact h2
            · rw [payloadConcat_cons_some, ← List.append_assoc]
              exact h3
        | none =>
            simp only [List.getElem?_cons_succ] at hop
            obtain ⟨s, e, h1, h2, h3⟩ := ih vpre j hop
            refine ⟨s, e, ?_, ?_, ?_⟩
            · rw [List.getElem?_cons_succ]
              show (vpre.length :: offsetsFor vpre.length rest)[j]? = some s
              exact h1
            · rw [List.getElem?_cons_succ]
              show (vpre.length :: offsetsFor vpre.length rest)[j + 1]? = some e
              exact h2
            · rw [payloadConcat_cons_none]
              exact h3

/-- `decode_wkb_dialect` inverts `wkb_type_id` (shared helper). -/
theorem decode_wkbTypeId (d : WkbDialect) :
    decodeWkbDialect (wkbTypeId d) = .ok d := by
  cases d <;> rfl

/-- C6: a WKB `GeometryArrayBuilder` created with dialect `d` stores the
tag byte exactly once at byte 0 of the value data, so after appending
any payload sequence (nulls allowed) the built array's `dialect()` is
`Ok(d)` and `wkb(i)` returns exactly the appended payload `p_i` — no tag
byte — for every valid non-null row `i`. -/
theorem wkb_builder_roundtrip (d : WkbDialect) (ops : List (Option (List Nat))) :
    ((WkbArrayBuilder.new d).appendAll ops).build.dialect = .ok d ∧
    ((WkbArrayBuilder.new d).appendAll ops).build.values =
      wkbTypeId d :: payloadConcat ops ∧
    ∀ i p, ops[i]? = some (some p) →
      ((WkbArrayBuilder.new d).appendAll ops).build.wkb i = some p := by
  rw [wkbAppendAll_state ops (WkbArrayBuilder.new d)]
  rw [show (WkbArrayBuilder.new d).dialect = d from rfl,
    show (WkbArrayBuilder.new d).valueBuilder = [wkbTypeId d] from rfl,
    show (WkbArrayBuilder.new d).offsetsBuilder = [1] from rfl,
    show (WkbArrayBuilder.new d).nullBuilder = [] from rfl]
  rw [show ([wkbTypeId d] : List Nat).length = 1 from rfl,
    List.singleton_append, List.singleton_append, List.nil_append]
  rw [show WkbArrayBuilder.build ⟨d, wkbTypeId d :: payloadConcat ops,
      1 :: offsetsFor 1 ops, ops.map Option.isSome⟩ =
    ⟨1 :: offsetsFor 1 ops, wkbTypeId d :: payloadConcat ops,
      finishNulls (ops.map Option.isSome)⟩ from rfl]
  refine ⟨?_, rfl, ?_⟩
  · show decodeWkbDialect (wkbTypeId d) = .ok d
    exact decode_wkbTypeId d
  · intro i p hop
    have hlt : i < ops.length := (List.getElem?_eq_some_iff.mp hop).1
    obtain ⟨s, e, h1, h2, h3⟩ := wkb_payload_extract ops [wkbTypeId d] i p hop
    rw [show ([wkbTypeId d] : List Nat).length = 1 from rfl] at h1 h2
    have hglen : (BinaryArray.mk (1 :: offsetsFor 1 ops)
        (wkbTypeId d :: payloadConcat ops)
        (finishNulls (ops.map Option.isSome))).geomLen = ops.length := by
      simp [BinaryArray.geomLen, offsetsFor_length]
    have hnull : (BinaryArray.mk (1 :: offsetsFor 1 ops)
        (wkbTypeId d :: payloadConcat ops)
        (finishNulls (ops.map Option.isSome))).isNullAt i = false := by
      unfold BinaryArray.isNullAt isNullOpt finishNulls
      split_ifs with hall
      · rfl
      · simp [isNullBit, List.getD_eq_getElem?_getD, List.getElem?_map, hop]
    unfold BinaryArray.wkb
    rw [hglen, hnull]
    rw [if_neg (by simp [hlt])]
    unfold BinaryArray.valueAt
    simp only [List.getD_eq_getElem?_getD]
    rw [show ((1 :: offsetsFor 1 ops) : List Nat)[i]? =
      ((1 : Nat) :: offsetsFor 1 ops)[i]? from rfl]
    rw [h1, h2]
    simp only [Option.getD_some]
    rw [show ((wkbTypeId d :: payloadConcat ops : List Nat)) =
      [wkbTypeId d] ++ payloadConcat ops from rfl]
    rw [h3]

/-- Witness for C6: dialect EWKB, payloads `[7, 8]` then a null then
`[9]`; row 2 reads back `[9]`. -/
theorem wkb_builder_roundtrip_witness :
    ((WkbArrayBuilder.new .ewkb).appendAll [some [7, 8], none, some [9]]).build.dialect
        = .ok .ewkb ∧
    ((WkbArrayBuilder.new .ewkb).appendAll [some [7, 8], none, some [9]]).build.wkb 2
        = some [9] :=
  ⟨(wkb_builder_roundtrip .ewkb [some [7, 8], none, some [9]]).1,
    (wkb_builder_roundtrip .ewkb [some [7, 8], none, some [9]]).2.2 2 [9] rfl⟩

/-- C2: `MixedGeometryArray::value(i)` reads `type_ids[i]` and behaves
exactly as the spec's dispatch model: map the id through the fixed table
(Point=1, LineString=2, Polygon=3, MultiPoint=4, MultiLineString=5,
MultiPolygon=6), return the matching sub-array's value at `offsets[i]`,
error when the referenced sub-array is absent, and error when the id is
outside the known set. -/
theorem mixed_value_dispatch (arr : MixedGeometryArray) (index : Nat) :
    arr.value index = mixedValueSpecModel arr index := by
  unfold MixedGeometryArray.value mixedValueSpecModel
  cases h : arr.typeIds[index]? with
  | none => rfl
  | some t =>
    by_cases h1 : t = 1
    · subst h1; rfl
    by_cases h2 : t = 2
    · subst h2; rfl
    by_cases h3 : t = 3
    · subst h3; rfl
    by_cases h4 : t = 4
    · subst h4; rfl
    by_cases h5 : t = 5
    · subst h5; rfl
    by_cases h6 : t = 6
    · subst h6; rfl
    have g1 : ¬(1 : Int) = t := fun h => h1 h.symm
    have g2 : ¬(2 : Int) = t := fun h => h2 h.symm
    have g3 : ¬(3 : Int) = t := fun h => h3 h.symm
    have g4 : ¬(4 : Int) = t := fun h => h4 h.symm
    have g5 : ¬(5 : Int) = t := fun h => h5 h.symm
    have g6 : ¬(6 : Int) = t := fun h => h6 h.symm
    simp [GeometryType.find, GeometryType.all, List.find?, GeometryType.geoTypeId,
      PointArray.geoTypeId, LineStringArray.geoTypeId, PolygonArray.geoTypeId,
      MultiPointArray.geoTypeId, MultiLineStringArray.geoTypeId,
      MultiPolygonArray.geoTypeId, h1, h2, h3, h4, h5, h6, g1, g2, g3, g4, g5, g6]

/-- C1 input: a rectangle (closed exterior ring, 5 coordinates, no
interior), matching the source's ignored `test_polygon_array` fixture. -/
def c1Polygon0 : GeoPolygon :=
  ⟨[⟨-111, 45⟩, ⟨-111, 41⟩, ⟨-104, 41⟩, ⟨-104, 45⟩, ⟨-111, 45⟩], []⟩

/-- C1 input: the same exterior plus one interior ring (5 coordinates). -/
def c1Polygon2 : GeoPolygon :=
  ⟨[⟨-111, 45⟩, ⟨-111, 41⟩, ⟨-104, 41⟩, ⟨-104, 45⟩, ⟨-111, 45⟩],
    [[⟨-110, 44⟩, ⟨-110, 42⟩, ⟨-105, 42⟩, ⟨-105, 44⟩, ⟨-110, 44⟩]]⟩

/-- C1 (code bug): after `push_geo_polygon(Some(g1)); push_null();
push_geo_polygon(Some(g2))`, the built `geom_offsets` are `[0, 0, 1, 3]`
— not the running ring counts `[0, 1, 1, 3]` the claim (and the source's
own "Total number of rings in this polygon" comment and ignored
round-trip test) require, because `push_geo_polygon` adds only
`num_interior_rings()` and `push_null` repeats the previous polygon's
start instead of its end.  Row 0 therefore reads back as an error
("polygon should not be empty"), not `Some(g1)`; row 1 still reads
`None`. -/
theorem polygon_builder_roundtrip_bug :
    ((PolygonArrayBuilder.new.pushAll [some c1Polygon0, none, some c1Polygon2]).buildE).map
        (fun arr =>
          (arr.geomOffsets, arr.ringOffsets, isOk (arr.value 0),
            (arr.value 1).map (fun v => v.isSome))) =
      .ok ([0, 0, 1, 3], [0, 5, 10, 15], false, .ok false) := rfl

def oobBinaryArray : BinaryArray := ⟨[1, 3], [1, 7, 8], none⟩

/-- Witness for C4 (amended), at index 1 of one-row arrays of every
shape. -/
theorem out_of_range_row_behavior_witness :
    isOk (oobPointArray.value 1) = false ∧
    isOk (oobLineStringArray.value 1) = false ∧
    isOk (oobPolygonArray.value 1) = false ∧
    isOk (oobMultiPointArray.value 1) = false ∧
    isOk (oobMultiLineStringArray.value 1) = false ∧
    isOk (oobMultiPolygonArray.value 1) = false ∧
    mixedOobExample.value 1 = .ok none ∧
    oobBinaryArray.wkb 1 = none :=
  ⟨out_of_range_row_behavior.1 oobPointArray rfl 1 (by decide),
    out_of_range_row_behavior.2.1 oobLineStringArray rfl 1 (by decide),
    out_of_range_row_behavior.2.2.1 oobPolygonArray rfl 1 (by decide),
    out_of_range_row_behavior.2.2.2.1 oobMultiPointArray rfl 1 (by decide),
    out_of_range_row_behavior.2.2.2.2.1 oobMultiLineStringArray rfl 1 (by decide),
    out_of_range_row_behavior.2.2.2.2.2.1 oobMultiPolygonArray rfl 1 (by decide),
    out_of_range_row_behavior.2.2.2.2.2.2.1 mixedOobExample 1 (by decide),
    out_of_range_row_behavior.2.2.2.2.2.2.2 oobBinaryArray 1 (by decide)⟩

end DFGeo
